import Mathlib

/-!
Verification of the multipath host-library code (`chapi2/multipath/multipath_windows.go`,
packages `multipath` and `tunelinux`).

The Go code is shallowly embedded: pure string manipulation is redone over `List Char`
(so everything evaluates inside the kernel), external collaborators (command execution,
WMI/iSCSI enumeration, the regexp engine, template loading) become explicit parameters
or oracle functions, and the side effects of the teardown functions are captured as
explicit event traces.
-/

/-! ## Go string primitives -/

/-- Character class of Go's regexp `\s` and the ASCII part of `strings.TrimSpace`:
space, tab, newline, form feed, carriage return. -/
def goIsSpace (c : Char) : Bool :=
  c = ' ' || c = '\t' || c = '\n' || c = '\x0c' || c = '\r'

/-- Trim `goIsSpace` characters from both ends of a character list
(Go `strings.TrimSpace` for ASCII input). -/
def goTrimChars (cs : List Char) : List Char :=
  ((cs.dropWhile goIsSpace).reverse.dropWhile goIsSpace).reverse

/-- Go `strings.TrimSpace` on strings. -/
def goTrimSpace (s : String) : String :=
  String.mk (goTrimChars s.data)

/-- Split a character list at every occurrence of `sep`
(Go `strings.Split` with a one-character separator). -/
def splitChar (sep : Char) : List Char → List (List Char)
  | [] => [[]]
  | c :: cs =>
    if c = sep then [] :: splitChar sep cs
    else
      match splitChar sep cs with
      | [] => [[c]]
      | t :: ts => (c :: t) :: ts

/-- Go `strings.Split(s, "\n")`. -/
def goSplitLines (s : String) : List String :=
  (splitChar '\n' s.data).map String.mk

/-- `aux` for Go `strings.Fields`: `acc` holds the reversed current run of
non-whitespace characters. -/
def goFieldsAux : List Char → List Char → List (List Char)
  | [], acc => if acc.isEmpty then [] else [acc.reverse]
  | c :: cs, acc =>
    if goIsSpace c then
      if acc.isEmpty then goFieldsAux cs [] else acc.reverse :: goFieldsAux cs []
    else goFieldsAux cs (c :: acc)

/-- Go `strings.Fields`: the maximal whitespace-separated runs of a string. -/
def goFields (s : String) : List String :=
  (goFieldsAux s.data []).map String.mk

/-- Boolean substring test on character lists (Go `strings.Contains`). -/
def containsChars (hay needle : List Char) : Bool :=
  hay.tails.any fun t => needle.isPrefixOf t

/-- Go `strings.Contains(hay, needle)`. -/
def strContainsB (hay needle : String) : Bool :=
  containsChars hay.data needle.data

/-- `needle` occurs contiguously inside `hay` (propositional form of
Go `strings.Contains`). -/
def strMentions (hay needle : String) : Prop :=
  ∃ p s, hay.data = p ++ needle.data ++ s

/-- `aux` for removing the first `n` occurrences of `'"'`
(Go `strings.Replace(s, "\"", "", n)`). -/
def removeQuoteAux : Nat → List Char → List Char
  | _, [] => []
  | 0, l => l
  | n + 1, c :: cs =>
    if c = '"' then removeQuoteAux n cs
    else c :: removeQuoteAux (n + 1) cs

/-- Go `strings.Replace(s, "\"", "", 2)`: delete the first two double-quote
characters, wherever they occur. -/
def goReplaceQuote2 (s : String) : String :=
  String.mk (removeQuoteAux 2 s.data)

/-! ## `findMountPointsOfMultipathDevice` (teardown, mount-table parsing)

Go source:
```
out, _, err := util.ExecCommandOutput("mount", args)
if err != nil { return mountPoints, err }
mountLines := strings.Split(out, "\n")
for _, line := range mountLines {
    entry := strings.Fields(line)
    if len(entry) > 3 {
        if strings.Contains(entry[0], multipathDevice) {
            mountPoints = append(mountPoints, entry[2])
        }
    }
}
return mountPoints, nil
```
The `mount` command invocation is an external collaborator; its outcome is the
`mountCmd` parameter. -/

/-- One iteration of the mount-line loop: append the third whitespace field when the
line has more than three fields and its first field contains the alias. -/
def mountLineStep (multipathDevice : String) (acc : List String) (line : String) :
    List String :=
  let entry := goFields line
  if entry.length > 3 then
    if strContainsB (entry.getD 0 "") multipathDevice then acc ++ [entry.getD 2 ""]
    else acc
  else acc

/-- `findMountPointsOfMultipathDevice` from the Go source, with the `mount`
command's outcome passed in as `mountCmd`. -/
def findMountPointsOfMultipathDevice (mountCmd : Except String String)
    (multipathDevice : String) : Except String (List String) :=
  match mountCmd with
  | .error e => .error e
  | .ok out => .ok ((goSplitLines out).foldl (mountLineStep multipathDevice) [])

/-! ## Device teardown: `UnmountMultipathDevice`

Go source (`UnmountMultipathDevice`):
```
mountPoints, err := findMountPointsOfMultipathDevice(multipathDevice)
if err != nil { return fmt.Errorf("Error occurred while fetching the mount points ...") }
if len(mountPoints) == 0 { return nil }
umountMutex.Lock(); defer umountMutex.Unlock()
for _, mountPoint := range mountPoints {
    err = unmount(mountPoint)
    if err != nil {
        err = KillProcessesUsingMountPoints(mountPoint)
        if err != nil { return fmt.Errorf("Unable to kill the processes using the mount point %s: %s", ...) }
        err = unmount(mountPoint)
        if err != nil { return err }
    }
}
return nil
```
`unmount` and `KillProcessesUsingMountPoints` invoke external commands
(`umount`, `fuser` + `SIGKILL`); their outcomes are oracle parameters
`u mp attempt` (attempt 1 = first try, 2 = retry after killing) and `k mp`
(`none` = success).  Every call made by the loop is recorded in an event trace,
including the acquisition of `umountMutex`. -/

/-- Externally observable actions of the unmount teardown sequence. -/
inductive UEvent where
  | acquireUmountLock : UEvent
  | unmountCall : String → Nat → UEvent
  | killCall : String → UEvent
deriving DecidableEq, Repr

/-- The mount-point loop of `UnmountMultipathDevice`: unmount, on failure kill
the holders once and retry the unmount once, abort on any remaining failure. -/
def unmountLoop (u : String → Nat → Option String) (k : String → Option String) :
    List String → Except String Unit × List UEvent
  | [] => (.ok (), [])
  | mp :: rest =>
    match u mp 1 with
    | none =>
      let r := unmountLoop u k rest
      (r.1, UEvent.unmountCall mp 1 :: r.2)
    | some _ =>
      match k mp with
      | some e =>
        (.error ("Unable to kill the processes using the mount point " ++ mp ++ ": " ++ e),
          [UEvent.unmountCall mp 1, UEvent.killCall mp])
      | none =>
        match u mp 2 with
        | none =>
          let r := unmountLoop u k rest
          (r.1, UEvent.unmountCall mp 1 :: UEvent.killCall mp :: UEvent.unmountCall mp 2 :: r.2)
        | some e2 =>
          (.error e2,
            [UEvent.unmountCall mp 1, UEvent.killCall mp, UEvent.unmountCall mp 2])

/-- `UnmountMultipathDevice` from the Go source; `discovery` is the outcome of
`findMountPointsOfMultipathDevice`. -/
def UnmountMultipathDevice (u : String → Nat → Option String)
    (k : String → Option String) (discovery : Except String (List String))
    (multipathDevice : String) : Except String Unit × List UEvent :=
  match discovery with
  | .error e =>
    (.error ("Error occurred while fetching the mount points of the multipath device " ++
      multipathDevice ++ ":" ++ e), [])
  | .ok mountPoints =>
    if mountPoints.length = 0 then (.ok (), [])
    else
      let r := unmountLoop u k mountPoints
      (r.1, UEvent.acquireUmountLock :: r.2)

/-! ## Device teardown: `FlushMultipathDevice`

Go source: a graceful `multipath -f` flush; on failure two best-effort diagnostic
dumps (`dmsetup info`, `fuser -mv`, results swallowed), then
`forceDeleteMultipathDevice` = `dmsetup remove -f`; if that fails too the call
returns `fmt.Errorf("Unable to remove the multipath device %s by force as well: %s",
multipathDevice, err.Error())` where `err` is the forced-removal error.  On
force-removal success the function returns the (then nil) `err`. -/

/-- Externally observable actions of `FlushMultipathDevice`. -/
inductive FlushEvent where
  | flushCall : FlushEvent
  | dmsetupInfoCall : FlushEvent
  | fuserCall : FlushEvent
  | forceRemoveCall : FlushEvent
deriving DecidableEq, Repr

/-- `FlushMultipathDevice` from the Go source.  `flushRes` is the outcome of
`multipath -f`, `infoRes`/`fuserRes` the (swallowed) outcomes of the diagnostic
dumps, and `forceRes` the outcome of `dmsetup remove -f`
(`forceDeleteMultipathDevice`); `none` means success. -/
def FlushMultipathDevice (flushRes : Option String) (infoRes fuserRes : Option String)
    (forceRes : Option String) (multipathDevice : String) :
    Except String Unit × List FlushEvent :=
  match flushRes with
  | none => (.ok (), [FlushEvent.flushCall])
  | some _ =>
    match forceRes with
    | none =>
      (.ok (), [FlushEvent.flushCall, FlushEvent.dmsetupInfoCall, FlushEvent.fuserCall,
        FlushEvent.forceRemoveCall])
    | some fe =>
      (.error ("Unable to remove the multipath device " ++ multipathDevice ++
          " by force as well: " ++ fe),
        [FlushEvent.flushCall, FlushEvent.dmsetupInfoCall, FlushEvent.fuserCall,
          FlushEvent.forceRemoveCall])

/-- `true` exactly on `Except.error`. -/
def exceptIsError : Except ε α → Bool
  | .error _ => true
  | .ok _ => false

/-- The events one iteration of the `UnmountMultipathDevice` loop emits for
mount point `mp` (proof abbreviation; it mirrors the branches of `unmountLoop`). -/
def unmountStepTrace (u : String → Nat → Option String) (k : String → Option String)
    (mp : String) : List UEvent :=
  match u mp 1 with
  | none => [UEvent.unmountCall mp 1]
  | some _ =>
    match k mp with
    | some _ => [UEvent.unmountCall mp 1, UEvent.killCall mp]
    | none => [UEvent.unmountCall mp 1, UEvent.killCall mp, UEvent.unmountCall mp 2]

/-- The error (if any) with which one iteration of the `UnmountMultipathDevice`
loop aborts the whole teardown at mount point `mp` (proof abbreviation). -/
def unmountStepAborts (u : String → Nat → Option String) (k : String → Option String)
    (mp : String) : Option String :=
  match u mp 1 with
  | none => none
  | some _ =>
    match k mp with
    | some e => some ("Unable to kill the processes using the mount point " ++ mp ++ ": " ++ e)
    | none =>
      match u mp 2 with
      | none => none
      | some e2 => some e2

/-- Concrete unmount oracle for witnesses: the first unmount of `/data` fails,
every other unmount succeeds. -/
def uBusyOnce : String → Nat → Option String :=
  fun mp attempt => if mp = "/data" ∧ attempt = 1 then some "target is busy" else none

/-- Concrete kill oracle for witnesses: killing always succeeds. -/
def kOk : String → Option String := fun _ => none

/-! ## iSCSI target resolution (`getIscsiTarget`, `getTargetPortals`)

Go source: `getIscsiTarget` resolves the device SCSI address via
`ioctl.GetScsiAddress` (outcome passed in as `scsiRes`), scans the target
mappings for the first entry whose `OSTargetNumber`/`OSBusNumber` equal the
resolved `(TargetId, PathId)`, and enriches the match with a target scope
(process-wide target-type cache + `iscsiPlugin.GetTargetScope`, errors
swallowed) and target portals (per-call cache + `getTargetPortals`, errors
swallowed).  No match yields a `cerrors.NotFound` error.  The caches and the
enrichment collaborators are passed as functions; the updated caches are part
of the result. -/

/-- The `(TargetId, PathId)` pair `ioctl.GetScsiAddress` resolves for a device. -/
structure ScsiAddress where
  targetId : Nat
  pathId : Nat
deriving DecidableEq, Repr

/-- The fields of `iscsidsc.ISCSI_TARGET_MAPPING` that `getIscsiTarget` reads. -/
structure TargetMapping where
  osTargetNumber : Nat
  osBusNumber : Nat
  targetName : String
  initiatorName : String
deriving DecidableEq, Repr

/-- `model.TargetPortal`: network address plus decimal port string. -/
structure TargetPortal where
  address : String
  port : String
deriving DecidableEq, Repr

/-- The fields of `iscsidsc.ISCSI_TARGET_PORTAL` that `getTargetPortals` reads. -/
structure WinTargetPortal where
  address : String
  socket : Nat
deriving DecidableEq, Repr

/-- `model.IscsiTarget`: the portal list is optional because a failed portal
enumeration leaves the Go slice nil. -/
structure IscsiTarget where
  name : String
  targetScope : String
  targetPortals : Option (List TargetPortal)
deriving DecidableEq, Repr

/-- Modelled from the spec: the error taxonomy distinguishes `NotFound`
(target/volume absent) from other failures (`cerrors` codes are outside the
given source). -/
inductive CErrorCode where
  | notFound : CErrorCode
  | other : CErrorCode
deriving DecidableEq, Repr

/-- Modelled from the spec: a `cerrors.ChapiError` is a code plus a message. -/
structure CError where
  code : CErrorCode
  message : String
deriving DecidableEq, Repr

/-- The `errorMessageUnableLocateIscsiTarget` constant (spec: "unable to locate
iSCSI target"). -/
def errorMessageUnableLocateIscsiTarget : String := "unable to locate iSCSI target"

/-- Conversion of one enumerated portal into a `model.TargetPortal`
(`strconv.Itoa(int(targetPortalWindows.Socket))`). -/
def portalConv (p : WinTargetPortal) : TargetPortal :=
  { address := p.address, port := toString p.socket }

/-- `getTargetPortals` from the Go source: `ipv4` is `net.ParseIP(...).To4() != nil`
(the Go standard library is external), `report` the outcome of
`iscsidsc.ReportIScsiTargetPortals`. -/
def getTargetPortals (ipv4 : String → Bool)
    (report : Except String (List WinTargetPortal)) : Except String (List TargetPortal) :=
  match report with
  | .error e => .error e
  | .ok targetPortals =>
    .ok (targetPortals.foldl
      (fun acc p => if ipv4 p.address then acc ++ [portalConv p] else acc) [])

/-- Point update of a function-backed cache (a Go map write). -/
def updateFn (f : String → α) (key : String) (v : α) : String → α :=
  fun x => if x = key then v else f x

/-- Scope enrichment of `getIscsiTarget`: consult the target-type cache
(`""` = miss), on a miss ask the iSCSI plugin (its error is discarded) and
cache a non-empty answer.  Returns the scope and the updated cache. -/
def resolveScope (scopeCache : String → String) (getScope : String → String)
    (targetName : String) : String × (String → String) :=
  let s0 := scopeCache targetName
  if s0 = "" then
    let s := getScope targetName
    if s ≠ "" then (s, updateFn scopeCache targetName s) else (s, scopeCache)
  else (s0, scopeCache)

/-- Portal enrichment of `getIscsiTarget`: consult the per-call portal cache,
on a miss call `getTargetPortals` (its error is discarded, leaving `none`) and
cache a non-nil answer.  Returns the portals and the updated cache. -/
def resolvePortals (portalCache : String → Option (List TargetPortal))
    (getPortals : String → String → Option (List TargetPortal))
    (initiatorName targetName : String) :
    Option (List TargetPortal) × (String → Option (List TargetPortal)) :=
  match portalCache targetName with
  | some ps => (some ps, portalCache)
  | none =>
    match getPortals initiatorName targetName with
    | some ps => (some ps, updateFn portalCache targetName (some ps))
    | none => (none, portalCache)

/-- The `model.IscsiTarget` value `getIscsiTarget` builds from a matched
mapping, together with the two updated caches. -/
def buildIscsiTarget (scopeCache : String → String) (getScope : String → String)
    (portalCache : String → Option (List TargetPortal))
    (getPortals : String → String → Option (List TargetPortal))
    (m : TargetMapping) :
    IscsiTarget × (String → String) × (String → Option (List TargetPortal)) :=
  let sr := resolveScope scopeCache getScope m.targetName
  let pr := resolvePortals portalCache getPortals m.initiatorName m.targetName
  ({ name := m.targetName, targetScope := sr.1, targetPortals := pr.1 }, sr.2, pr.2)

/-- The mapping-scan loop of `getIscsiTarget`: skip entries whose target or bus
number differs from the resolved address, build the target from the first
match, `NotFound` when the scan ends empty-handed. -/
def getIscsiTargetLoop (scopeCache : String → String) (getScope : String → String)
    (portalCache : String → Option (List TargetPortal))
    (getPortals : String → String → Option (List TargetPortal))
    (addr : ScsiAddress) :
    List TargetMapping →
      Except CError IscsiTarget × (String → String) ×
        (String → Option (List TargetPortal))
  | [] =>
    (.error { code := CErrorCode.notFound, message := errorMessageUnableLocateIscsiTarget },
      scopeCache, portalCache)
  | m :: rest =>
    if m.osTargetNumber ≠ addr.targetId ∨ m.osBusNumber ≠ addr.pathId then
      getIscsiTargetLoop scopeCache getScope portalCache getPortals addr rest
    else
      let b := buildIscsiTarget scopeCache getScope portalCache getPortals m
      (.ok b.1, b.2.1, b.2.2)

/-- `getIscsiTarget` from the Go source; `scsiRes` is the outcome of
`ioctl.GetScsiAddress`. -/
def getIscsiTarget (scopeCache : String → String) (getScope : String → String)
    (portalCache : String → Option (List TargetPortal))
    (getPortals : String → String → Option (List TargetPortal))
    (scsiRes : Except String ScsiAddress) (targetMappings : List TargetMapping) :
    Except CError IscsiTarget × (String → String) ×
      (String → Option (List TargetPortal)) :=
  match scsiRes with
  | .error e => (.error { code := CErrorCode.other, message := e }, scopeCache, portalCache)
  | .ok addr => getIscsiTargetLoop scopeCache getScope portalCache getPortals addr targetMappings

/-! ## `tunelinux` recommendation engine

Go source: a `Recommendation` is produced per template parameter by
`getMultipathDeviceParamRecommendation`; `getMultipathDeviceScopeRecommendations`
scans the extracted device block line by line against the pattern
`\s*(?P<name>.*?)\s+(?P<value>.*)`.  The template maps
(`getParamToTemplateFieldMap`, loaded from a JSON template file) are external
and become the `templates` parameter: one entry per device type with, for each
parameter key, the recommended value, description and severity.
`linux.HashMountID` is external and becomes the `hash` parameter. -/

/-- Compliance verdict (spec: `Recommended | NotRecommended`; the Go
`ComplianceStatus.String` values live outside the given source). -/
inductive ComplianceStatusT where
  | recommended : ComplianceStatusT
  | notRecommended : ComplianceStatusT
deriving DecidableEq, Repr

/-- The `tunelinux` `Recommendation` record. -/
structure Recommendation where
  id : String
  category : String
  level : String
  description : String
  parameter : String
  value : String
  recommendation : String
  compliantStatus : ComplianceStatusT
  device : String
  fsType : String
  vendor : String
deriving DecidableEq, Repr

/-- One template parameter: key plus the recommended value, description and
severity drawn from the three parallel `deviceMap`s of the template. -/
structure TemplateParam where
  key : String
  recommendation : String
  description : String
  severity : String
deriving DecidableEq, Repr

/-- One device-type entry of the template maps. -/
structure DeviceTemplate where
  deviceType : String
  params : List TemplateParam
deriving DecidableEq, Repr

/-- The `tunelinux` `DeviceRecommendation` record (source field `RecomendArray`). -/
structure DeviceRecommendation where
  deviceType : String
  recomendArray : List Recommendation
deriving DecidableEq, Repr

/-- `getMultipathDeviceParamRecommendation` from the Go source: the verdict is
`Recommended` iff `currentValue == recommendedValue ||
strings.Replace(currentValue, "\"", "", 2) == recommendedValue`. -/
def getMultipathDeviceParamRecommendation (hash : String → String)
    (paramKey currentValue recommendedValue description severity : String) :
    Recommendation :=
  { id := hash ("multipath" ++ "device" ++ paramKey)
    category := "multipath"
    level := severity
    description := description
    parameter := paramKey
    value := currentValue
    recommendation := recommendedValue
    compliantStatus :=
      if currentValue = recommendedValue ∨ goReplaceQuote2 currentValue = recommendedValue
      then ComplianceStatusT.recommended else ComplianceStatusT.notRecommended
    device := "all"
    fsType := ""
    vendor := "" }

/-- The Go regexp `\s*(?P<name>.*?)\s+(?P<value>.*)` applied to one
(newline-free) line, leftmost-first semantics:
* a line without whitespace does not match;
* `\s*` greedily eats the leading whitespace run, the lazy `name` then stops at
  the first whitespace after it, `\s+` greedily eats that run and `value` is
  the rest — so `name` is the first field and `value` everything after the
  following whitespace run;
* when nothing follows the first field (or the line is all whitespace), `\s*`
  backtracks by one character so that `\s+` can match, leaving `name` empty and
  `value` the remaining text (empty for an all-whitespace line). -/
def parseMultipathParam (line : String) : Option (String × String) :=
  let cs := line.data
  let lead := cs.takeWhile goIsSpace
  let rest := cs.dropWhile goIsSpace
  if rest.isEmpty then
    if cs.isEmpty then none else some ("", "")
  else
    let name := rest.takeWhile (fun c => !goIsSpace c)
    let after := rest.dropWhile (fun c => !goIsSpace c)
    if after.isEmpty then
      if lead.isEmpty then none else some ("", String.mk rest)
    else
      some (String.mk name, String.mk (after.dropWhile goIsSpace))

/-- The inner line scan of `getMultipathDeviceScopeRecommendations`: skip empty
lines and lines the pattern does not match, return the value of the first line
whose extracted name equals `key`. -/
def findParamValue (currentSettings : List String) (key : String) : Option String :=
  match currentSettings with
  | [] => none
  | setting :: rest =>
    if setting = "" then findParamValue rest key
    else
      match parseMultipathParam setting with
      | none => findParamValue rest key
      | some nv => if nv.1 = key then some nv.2 else findParamValue rest key

/-- `getMultipathDeviceScopeRecommendations` from the Go source: for every
template device type and every parameter key, emit the verdict for the first
matching line's (whitespace-trimmed) value, or for `""` when the key is absent
from the device block. -/
def getMultipathDeviceScopeRecommendations (hash : String → String)
    (templates : List DeviceTemplate) (deviceBlock : String) :
    List DeviceRecommendation :=
  let currentSettings := goSplitLines deviceBlock
  templates.foldl
    (fun acc tmpl =>
      let arr := tmpl.params.foldl
        (fun arr p =>
          match findParamValue currentSettings p.key with
          | some v =>
            arr ++ [getMultipathDeviceParamRecommendation hash p.key (goTrimSpace v)
              p.recommendation p.description p.severity]
          | none =>
            arr ++ [getMultipathDeviceParamRecommendation hash p.key ""
              p.recommendation p.description p.severity]) []
      acc ++ [{ deviceType := tmpl.deviceType, recomendArray := arr }]) []

/-- `IsMultipathRequired` from the Go source: required unless the host is a
virtual machine without guest iSCSI (`isVM` is the outcome of
`linux.IsVirtualMachine`, `iscsiEnabled` of `IsIscsiEnabled`). -/
def IsMultipathRequired (isVM : Except String Bool) (iscsiEnabled : Bool) :
    Except String Bool :=
  match isVM with
  | .error e => .error e
  | .ok vm => .ok (!(vm && !iscsiEnabled))

/-- The `deviceBlockPattern` map from the Go source, as the list of its
entries; Go iterates a map in randomized order, so any permutation of this
list is a possible iteration order. -/
def deviceBlockPattern : List (String × String) :=
  [("Nimble", "(?s)devices\\s+\x7b\\s*.*device\\s*\x7b(?P<device_block>.*Nimble.*?)\x7d"),
   ("3par", "(?s)devices\\s+\x7b\\s*.*device\\s*\x7b(?P<device_block>.*3PAR.*?)\x7d")]

/-- The vendor-pattern loop of `GetMultipathRecommendations`.  Each iteration
*overwrites* `deviceRecommendations` (the accumulator) with the
recommendations computed from that pattern's extracted device block; a missing
configuration file returns immediately, a read failure aborts.  `confRead` is
`none` when `/etc/multipath.conf` does not exist, otherwise the outcome of
`ioutil.ReadFile`; `extract` is the (external) regexp engine returning the
`device_block` submatch. -/
def gmrLoop (hash : String → String) (templates : List DeviceTemplate)
    (confRead : Option (Except String String))
    (extract : String → String → Option String) :
    List (String × String) → List DeviceRecommendation →
      Except String (List DeviceRecommendation)
  | [], acc => .ok acc
  | (_, pat) :: rest, _acc =>
    match confRead with
    | none => .ok (getMultipathDeviceScopeRecommendations hash templates "")
    | some (.error e) => .error e
    | some (.ok content) =>
      match extract pat content with
      | some block =>
        gmrLoop hash templates confRead extract rest
          (getMultipathDeviceScopeRecommendations hash templates (goTrimSpace block))
      | none =>
        gmrLoop hash templates confRead extract rest
          (getMultipathDeviceScopeRecommendations hash templates "")

/-- `GetMultipathRecommendations` from the Go source; `loadTemplates` is the
outcome of `loadTemplateSettings`, `patternOrder` the iteration order of the
`deviceBlockPattern` map for this invocation. -/
def GetMultipathRecommendations (hash : String → String) (isVM : Except String Bool)
    (iscsiEnabled : Bool) (loadTemplates : Except String (List DeviceTemplate))
    (confRead : Option (Except String String))
    (extract : String → String → Option String)
    (patternOrder : List (String × String)) :
    Except String (List DeviceRecommendation) :=
  match IsMultipathRequired isVM iscsiEnabled with
  | .error e => .error e
  | .ok false => .ok []
  | .ok true =>
    match loadTemplates with
    | .error e => .error e
    | .ok templates => gmrLoop hash templates confRead extract patternOrder []

/-- Spec-side comparison for C6 ("equals V after stripping surrounding quotes
and trimming whitespace"): trim, then remove one double quote from each end if
both are present. -/
def specStripSurroundingQuotes (s : String) : String :=
  let cs := (goTrimSpace s).data
  if 2 ≤ cs.length ∧ cs.head? = some '"' ∧ cs.getLast? = some '"' then
    String.mk ((cs.drop 1).dropLast)
  else String.mk cs

/-- Concrete `multipath.conf` content for C7: it contains a Nimble device
block and no `3PAR` substring. -/
def exContent : String :=
  "devices \x7b\ndevice \x7b\nvendor Nimble\npath_selector X\n\x7d\n\x7d"

/-- The `device_block` submatch the Nimble pattern captures from `exContent`:
after `devices {`/`device {`, `.*Nimble` greedily reaches the (only) `Nimble`
and the lazy `.*?` stops before the first closing brace. -/
def exNimbleBlock : String := "\nvendor Nimble\npath_selector X\n"

/-- The (external) regexp engine evaluated on the C7 inputs: the Nimble
pattern captures `exNimbleBlock` from `exContent`; the 3par pattern cannot
match because `exContent` contains no `3PAR` substring. -/
def exExtract : String → String → Option String :=
  fun pat content =>
    if pat = "(?s)devices\\s+\x7b\\s*.*device\\s*\x7b(?P<device_block>.*Nimble.*?)\x7d"
        ∧ content = exContent
    then some exNimbleBlock else none

/-- Concrete template set for C7: one Nimble device type with one parameter. -/
def exTemplates : List DeviceTemplate :=
  [{ deviceType := "Nimble GST", params := [
      { key := "path_selector", recommendation := "X", description := "", severity := "" }] }]

/-! ## `setMultipathRecommendations` (configuration apply step)

Go source: parse `/etc/multipath.conf` (`mpathconfig.ParseConfig`), get or
create `devices { device { ... } }` for the device type, write every
recommended value into the device section's property map, then get or create
the `defaults` section and force `find_multipaths` to `"no"` when it is
`"yes"` or absent (a Go map read of a missing key yields `""`), and save.
The `mpathconfig` section tree is repository code outside the given source;
it is modelled from the spec's Config Section Model (named sections holding
property maps). -/

/-- Property lookup in a section's property map; a missing key reads as `""`
like a Go map access. -/
def lookupProp (props : List (String × String)) (key : String) : String :=
  (props.lookup key).getD ""

/-- Property write in a section's property map (Go map assignment). -/
def setProp (props : List (String × String)) (key v : String) :
    List (String × String) :=
  match props with
  | [] => [(key, v)]
  | (k2, v2) :: rest =>
    if k2 = key then (k2, v) :: rest else (k2, v2) :: setProp rest key v

/-- Modelled from the spec: the slice of the `mpathconfig` configuration tree
`setMultipathRecommendations` touches — the vendor `device` section (inside
`devices`) and the `defaults` section, each an optional property map. -/
structure MpathConfig where
  deviceSection : Option (List (String × String))
  devicesPresent : Bool
  defaultsSection : Option (List (String × String))
deriving DecidableEq, Repr

/-- The configuration transformation of `setMultipathRecommendations`:
get-or-create the device section and write all recommended values; then
get-or-create `defaults` and force `find_multipaths` to `"no"` when it reads
`"yes"` or `""`. -/
def applyMultipathRecommendations (config : MpathConfig)
    (recommendations : List Recommendation) : MpathConfig :=
  let devProps := recommendations.foldl
    (fun ps r => setProp ps r.parameter r.recommendation)
    (config.deviceSection.getD [])
  let defProps0 := config.defaultsSection.getD []
  let v := lookupProp defProps0 "find_multipaths"
  let defProps :=
    if v = "yes" ∨ v = "" then setProp defProps0 "find_multipaths" "no" else defProps0
  { deviceSection := some devProps, devicesPresent := true,
    defaultsSection := some defProps }

/-- `setMultipathRecommendations` from the Go source; `parsed` is the outcome
of `mpathconfig.ParseConfig` (`SaveConfig` persists the returned tree). -/
def setMultipathRecommendations (parsed : Except String MpathConfig)
    (recommendations : List Recommendation) : Except String MpathConfig :=
  match parsed with
  | .error e => .error e
  | .ok config => .ok (applyMultipathRecommendations config recommendations)

/-! ## `GetMultipathDevices` (live multipath status)

Go source: run `multipathd show multipaths json`, unmarshal, and surface the
map entries with a non-empty, supported vendor, marking an entry unhealthy
when it has fewer than one active path and more than zero path faults.
`model.MultipathInfo` is repository code outside the given source; the entry
is modelled from the spec's JSON shape `{ name, vend, paths, path_faults,
path_groups }` — the JSON carries no health field, so `isUnhealthy`
unmarshals to the zero value `false`. -/

/-- One path of a path group (`path.dev`). -/
structure MultipathPath where
  dev : String
deriving DecidableEq, Repr

/-- One path group of a multipath map entry. -/
structure MultipathPathGroup where
  paths : List MultipathPath
deriving DecidableEq, Repr

/-- Modelled from the spec: a map entry of the multipathd JSON document. -/
structure MultipathDeviceEntry where
  name : String
  vend : String
  paths : Int
  pathFaults : Int
  pathGroups : List MultipathPathGroup
  isUnhealthy : Bool
deriving DecidableEq, Repr

/-- `isSupportedDeviceVendor` from the Go source: linear scan for an exact
vendor match. -/
def isSupportedDeviceVendor (deviceVendors : List String) (vendor : String) : Bool :=
  match deviceVendors with
  | [] => false
  | v :: rest => if v = vendor then true else isSupportedDeviceVendor rest vendor

/-- The map-entry loop of `GetMultipathDevices`: keep supported-vendor entries,
marking an entry unhealthy when `paths < 1 && path_faults > 0`. -/
def processMaps (vendorPatterns : List String) :
    List MultipathDeviceEntry → List MultipathDeviceEntry
  | [] => []
  | mapItem :: rest =>
    if 0 < mapItem.vend.length ∧ isSupportedDeviceVendor vendorPatterns mapItem.vend then
      (if mapItem.paths < 1 ∧ mapItem.pathFaults > 0 then
        { mapItem with isUnhealthy := true }
      else mapItem) :: processMaps vendorPatterns rest
    else processMaps vendorPatterns rest

/-- `GetMultipathDevices` from the Go source; `cmd` is the outcome of the
`multipathd` invocation and `parse` the (external) JSON unmarshalling. -/
def GetMultipathDevices (vendorPatterns : List String) (cmd : Except String String)
    (parse : String → Except String (List MultipathDeviceEntry)) :
    Except String (List MultipathDeviceEntry) :=
  match cmd with
  | .error e => .error ("Failed to get the multipath devices due to the error: " ++ e)
  | .ok out =>
    if out ≠ "" then
      match parse out with
      | .error e => .error ("Invalid JSON output of multipathd command: " ++ e)
      | .ok multipathJson => .ok (processMaps vendorPatterns multipathJson)
    else .error "Invalid multipathd command output received"

/-- Concrete map entries for the C10 witness: an unhealthy supported entry, a
healthy supported entry, and an unsupported-vendor entry. -/
def exMaps : List MultipathDeviceEntry :=
  [{ name := "mpatha", vend := "Nimble", paths := 0, pathFaults := 2,
     pathGroups := [], isUnhealthy := false },
   { name := "mpathb", vend := "Nimble", paths := 2, pathFaults := 0,
     pathGroups := [], isUnhealthy := false },
   { name := "sda", vend := "Other", paths := 0, pathFaults := 3,
     pathGroups := [], isUnhealthy := false }]

/-! # Theorems -/

/-! ## String-primitive lemmas -/

theorem string_data_append (a b : String) : (a ++ b).data = a.data ++ b.data := by
  cases a
  cases b
  rfl

theorem containsChars_iff (hay needle : List Char) :
    containsChars hay needle = true ↔ ∃ p s, hay = p ++ needle ++ s := by
  unfold containsChars
  rw [List.any_eq_true]
  constructor
  · rintro ⟨t, ht, hpre⟩
    rw [List.mem_tails] at ht
    obtain ⟨p, hp⟩ := ht
    rw [List.isPrefixOf_iff_prefix] at hpre
    obtain ⟨s, hs⟩ := hpre
    exact ⟨p, s, by rw [← hp, ← hs, List.append_assoc]⟩
  · rintro ⟨p, s, rfl⟩
    refine ⟨needle ++ s, ?_, ?_⟩
    · rw [List.mem_tails]
      exact ⟨p, by rw [List.append_assoc]⟩
    · rw [List.isPrefixOf_iff_prefix]
      exact ⟨s, rfl⟩

theorem strMentions_iff (hay needle : String) :
    strMentions hay needle ↔ strContainsB hay needle = true := by
  rw [strMentions, strContainsB, containsChars_iff]

/-! ## Mount-table lemmas -/

theorem mountLine_foldl_nil (dev : String) (lines : List String)
    (h : ∀ line ∈ lines, (goFields line).length ≤ 3 ∨
      strContainsB ((goFields line).getD 0 "") dev = false) :
    ∀ acc, lines.foldl (mountLineStep dev) acc = acc := by
  induction lines with
  | nil => intro acc; rfl
  | cons l ls ih =>
    intro acc
    have hl := h l (List.mem_cons_self _ _)
    have hrest : ∀ line ∈ ls, (goFields line).length ≤ 3 ∨
        strContainsB ((goFields line).getD 0 "") dev = false :=
      fun line hline => h line (List.mem_cons_of_mem _ hline)
    rw [List.foldl_cons]
    have hstep : mountLineStep dev acc l = acc := by
      simp only [mountLineStep]
      rcases hl with hlen | hcon
      · rw [if_neg (by omega)]
      · by_cases hlen2 : (goFields l).length > 3
        · have hnc : ¬ (strContainsB ((goFields l).getD 0 "") dev = true) := by
            rw [hcon]
            exact Bool.false_ne_true
          rw [if_pos hlen2, if_neg hnc]
        · rw [if_neg hlen2]
    rw [hstep]
    exact ih hrest acc


/-! ## Unmount-loop lemmas -/

theorem unmountLoop_cons (u : String → Nat → Option String) (k : String → Option String)
    (m : String) (rest : List String) :
    unmountLoop u k (m :: rest) =
      match unmountStepAborts u k m with
      | some e => (.error e, unmountStepTrace u k m)
      | none =>
        ((unmountLoop u k rest).1, unmountStepTrace u k m ++ (unmountLoop u k rest).2) := by
  rw [unmountLoop]
  unfold unmountStepAborts unmountStepTrace
  cases hu1 : u m 1 with
  | none => simp
  | some e =>
    cases hk : k m with
    | some e2 => simp
    | none => cases hu2 : u m 2 with
      | none => simp
      | some e3 => simp

theorem stepTrace_count_kill (u : String → Nat → Option String) (k : String → Option String)
    (m mp : String) :
    (unmountStepTrace u k m).count (UEvent.killCall mp) =
      if mp = m ∧ u m 1 ≠ none then 1 else 0 := by
  unfold unmountStepTrace
  cases hu1 : u m 1 with
  | none => by_cases hmp : mp = m <;> simp [hmp, hu1, List.count_cons]
  | some e =>
    cases hk : k m with
    | some e2 => by_cases hmp : mp = m <;> simp [hmp, hu1, List.count_cons]
    | none => by_cases hmp : mp = m <;> simp [hmp, hu1, List.count_cons]

theorem stepTrace_count_un2 (u : String → Nat → Option String) (k : String → Option String)
    (m mp : String) :
    (unmountStepTrace u k m).count (UEvent.unmountCall mp 2) =
      if mp = m ∧ u m 1 ≠ none ∧ k m = none then 1 else 0 := by
  unfold unmountStepTrace
  cases hu1 : u m 1 with
  | none => by_cases hmp : mp = m <;> simp [hmp, hu1, List.count_cons]
  | some e =>
    cases hk : k m with
    | some e2 => by_cases hmp : mp = m <;> simp [hmp, hu1, hk, List.count_cons]
    | none => by_cases hmp : mp = m <;> simp [hmp, hu1, hk, List.count_cons]

theorem stepAborts_none_iff (u : String → Nat → Option String) (k : String → Option String)
    (m : String) :
    unmountStepAborts u k m = none ↔
      u m 1 = none ∨ (k m = none ∧ u m 2 = none) := by
  unfold unmountStepAborts
  cases hu1 : u m 1 with
  | none => simp
  | some e =>
    cases hk : k m with
    | some e2 => simp
    | none => cases hu2 : u m 2 with
      | none => simp
      | some e3 => simp

theorem unmountLoop_count_kill_le (u : String → Nat → Option String)
    (k : String → Option String) (mps : List String) (mp : String) :
    (unmountLoop u k mps).2.count (UEvent.killCall mp) ≤ mps.count mp := by
  induction mps with
  | nil => simp [unmountLoop]
  | cons m rest ih =>
    rw [unmountLoop_cons]
    cases hab : unmountStepAborts u k m with
    | some e =>
      simp only [stepTrace_count_kill, List.count_cons]
      by_cases hmp : mp = m <;> by_cases hu : u m 1 = none <;> simp [hmp, hu] <;> omega
    | none =>
      simp only [List.count_append, stepTrace_count_kill, List.count_cons]
      by_cases hmp : mp = m
      · subst hmp
        by_cases hu : u mp 1 = none <;> simp [hu] <;> omega
      · by_cases hu : u m 1 = none <;> simp [hmp, hu] <;> omega

theorem unmountLoop_count_un2_le (u : String → Nat → Option String)
    (k : String → Option String) (mps : List String) (mp : String) :
    (unmountLoop u k mps).2.count (UEvent.unmountCall mp 2) ≤ mps.count mp := by
  induction mps with
  | nil => simp [unmountLoop]
  | cons m rest ih =>
    rw [unmountLoop_cons]
    cases hab : unmountStepAborts u k m with
    | some e =>
      simp only [stepTrace_count_un2, List.count_cons]
      by_cases hmp : mp = m
      · subst hmp
        split <;> simp <;> omega
      · simp [hmp]
    | none =>
      simp only [List.count_append, stepTrace_count_un2, List.count_cons]
      by_cases hmp : mp = m
      · subst hmp
        split <;> simp <;> omega
      · simp [hmp]
        omega

theorem unmountLoop_ok (u : String → Nat → Option String)
    (k : String → Option String) (mps : List String)
    (h : ∀ m ∈ mps, unmountStepAborts u k m = none) :
    (unmountLoop u k mps).1 = .ok () := by
  induction mps with
  | nil => rfl
  | cons m rest ih =>
    rw [unmountLoop_cons, h m (List.mem_cons_self _ _)]
    exact ih fun m2 hm2 => h m2 (List.mem_cons_of_mem _ hm2)

theorem unmountLoop_error (u : String → Nat → Option String)
    (k : String → Option String) (mps : List String) (mp : String)
    (hm : mp ∈ mps) (ha : unmountStepAborts u k mp ≠ none) :
    exceptIsError (unmountLoop u k mps).1 = true := by
  induction mps with
  | nil => cases hm
  | cons m rest ih =>
    rw [unmountLoop_cons]
    cases hab : unmountStepAborts u k m with
    | some e => rfl
    | none =>
      rcases List.mem_cons.mp hm with hm1 | hm2
      · subst hm1
        exact absurd hab ha
      · exact ih hm2

theorem unmountLoop_reached (u : String → Nat → Option String)
    (k : String → Option String) (mps : List String) (mp : String)
    (hnd : mps.Nodup) (hm : mp ∈ mps) (hfail : u mp 1 ≠ none)
    (hothers : ∀ m ∈ mps, m ≠ mp → unmountStepAborts u k m = none) :
    (unmountLoop u k mps).2.count (UEvent.killCall mp) = 1 ∧
      (k mp = none → (unmountLoop u k mps).2.count (UEvent.unmountCall mp 2) = 1) := by
  induction mps with
  | nil => cases hm
  | cons m rest ih =>
    have hndr : rest.Nodup := (List.nodup_cons.mp hnd).2
    have hmnr : m ∉ rest := (List.nodup_cons.mp hnd).1
    rw [unmountLoop_cons]
    rcases List.mem_cons.mp hm with hm1 | hm2
    · subst hm1
      have hrest0 : rest.count mp = 0 := List.count_eq_zero_of_not_mem hmnr
      have hkill0 : (unmountLoop u k rest).2.count (UEvent.killCall mp) = 0 :=
        Nat.le_zero.mp (hrest0 ▸ unmountLoop_count_kill_le u k rest mp)
      have hun20 : (unmountLoop u k rest).2.count (UEvent.unmountCall mp 2) = 0 :=
        Nat.le_zero.mp (hrest0 ▸ unmountLoop_count_un2_le u k rest mp)
      cases hab : unmountStepAborts u k mp with
      | some e =>
        constructor
        · rw [stepTrace_count_kill, if_pos ⟨rfl, hfail⟩]
        · intro hk
          rw [stepTrace_count_un2, if_pos ⟨rfl, hfail, hk⟩]
      | none =>
        constructor
        · rw [List.count_append, stepTrace_count_kill, if_pos ⟨rfl, hfail⟩, hkill0]
        · intro hk
          rw [List.count_append, stepTrace_count_un2, if_pos ⟨rfl, hfail, hk⟩, hun20]
    · have hmne : m ≠ mp := fun hc => hmnr (hc ▸ hm2)
      have hab : unmountStepAborts u k m = none :=
        hothers m (List.mem_cons_self _ _) hmne
      rw [hab]
      have hothers2 : ∀ m2 ∈ rest, m2 ≠ mp → unmountStepAborts u k m2 = none :=
        fun m2 hm2' hne => hothers m2 (List.mem_cons_of_mem _ hm2') hne
      obtain ⟨ihk, ihu⟩ := ih hndr hm2 hothers2
      constructor
      · rw [List.count_append, stepTrace_count_kill, if_neg (fun hc => hmne hc.1.symm), ihk]
      · intro hk
        rw [List.count_append, stepTrace_count_un2, if_neg (fun hc => hmne hc.1.symm),
          ihu hk]

/-! ## Claim C1 -/

/-- C1: for every multipath alias with at least one discovered mount point,
`UnmountMultipathDevice` invokes kill-processes at most once per mount point;
when the first unmount of a mount point fails (and every other mount point
unmounts cleanly) kill-processes runs exactly once for it and, if the kill
succeeded, the unmount is retried exactly once; if the retried unmount also
fails the whole teardown aborts with an error; and if every mount point
eventually unmounts the teardown reports success. -/
theorem claim1_unmount_kill_retry_policy
    (u : String → Nat → Option String) (k : String → Option String)
    (mps : List String) (dev mp : String)
    (hne : mps ≠ []) (hnd : mps.Nodup) :
    ((UnmountMultipathDevice u k (.ok mps) dev).2.count (UEvent.killCall mp) ≤ 1)
    ∧ (mp ∈ mps → u mp 1 ≠ none →
        (∀ m ∈ mps, m ≠ mp → u m 1 = none ∨ (k m = none ∧ u m 2 = none)) →
        (UnmountMultipathDevice u k (.ok mps) dev).2.count (UEvent.killCall mp) = 1
        ∧ (k mp = none →
            (UnmountMultipathDevice u k (.ok mps) dev).2.count
              (UEvent.unmountCall mp 2) = 1))
    ∧ (mp ∈ mps → u mp 1 ≠ none → k mp = none → u mp 2 ≠ none →
        exceptIsError (UnmountMultipathDevice u k (.ok mps) dev).1 = true)
    ∧ ((∀ m ∈ mps, u m 1 = none ∨ (k m = none ∧ u m 2 = none)) →
        (UnmountMultipathDevice u k (.ok mps) dev).1 = .ok ()) := by
  have hlen : ¬ mps.length = 0 := by
    cases mps with
    | nil => exact absurd rfl hne
    | cons a l => simp
  have hdev : UnmountMultipathDevice u k (.ok mps) dev =
      ((unmountLoop u k mps).1, UEvent.acquireUmountLock :: (unmountLoop u k mps).2) := by
    simp only [UnmountMultipathDevice]
    rw [if_neg hlen]
  rw [hdev]
  have hcountk : (UEvent.acquireUmountLock :: (unmountLoop u k mps).2).count
      (UEvent.killCall mp) = (unmountLoop u k mps).2.count (UEvent.killCall mp) := by
    simp [List.count_cons]
  have hcountu : (UEvent.acquireUmountLock :: (unmountLoop u k mps).2).count
      (UEvent.unmountCall mp 2) =
      (unmountLoop u k mps).2.count (UEvent.unmountCall mp 2) := by
    simp [List.count_cons]
  refine ⟨?_, ?_, ?_, ?_⟩
  · rw [hcountk]
    exact le_trans (unmountLoop_count_kill_le u k mps mp)
      (List.nodup_iff_count_le_one.mp hnd mp)
  · intro hm hfail hothers
    have hothers2 : ∀ m ∈ mps, m ≠ mp → unmountStepAborts u k m = none :=
      fun m hmem hneq => (stepAborts_none_iff u k m).mpr (hothers m hmem hneq)
    obtain ⟨h1, h2⟩ := unmountLoop_reached u k mps mp hnd hm hfail hothers2
    exact ⟨hcountk ▸ h1, fun hk => hcountu ▸ h2 hk⟩
  · intro hm hfail hk hfail2
    have hab : unmountStepAborts u k mp ≠ none := by
      rw [Ne, stepAborts_none_iff]
      rintro (h1 | ⟨h2, h3⟩)
      · exact hfail h1
      · exact hfail2 h3
    exact unmountLoop_error u k mps mp hm hab
  · intro hall
    exact unmountLoop_ok u k mps
      fun m hmem => (stepAborts_none_iff u k m).mpr (hall m hmem)

/-- C1 witness: a single mount point whose first unmount fails, kill succeeds,
and retried unmount succeeds: kill runs exactly once, the retry happens exactly
once, and the teardown reports success. -/
theorem claim1_witness :
    (UnmountMultipathDevice uBusyOnce kOk (.ok ["/data"]) "mpatha").2.count
      (UEvent.killCall "/data") = 1
    ∧ (UnmountMultipathDevice uBusyOnce kOk (.ok ["/data"]) "mpatha").2.count
      (UEvent.unmountCall "/data" 2) = 1
    ∧ (UnmountMultipathDevice uBusyOnce kOk (.ok ["/data"]) "mpatha").1 = .ok () := by
  obtain ⟨h1, h2, h3, h4⟩ := claim1_unmount_kill_retry_policy uBusyOnce kOk ["/data"]
    "mpatha" "/data" (by decide) (by decide)
  obtain ⟨hk, hu⟩ := h2 (by decide) (by decide) (by decide)
  exact ⟨hk, hu (by decide), h4 (by decide)⟩

/-! ## Claim C9 -/

/-- C9: when mount-point discovery returns an empty list,
`UnmountMultipathDevice` returns success immediately with an empty event trace:
the unmount-execution lock is never acquired and no unmount or kill call is
made. -/
theorem claim9_no_mount_points_immediate_success
    (u : String → Nat → Option String) (k : String → Option String) (dev : String) :
    UnmountMultipathDevice u k (.ok []) dev = (.ok (), []) := rfl

/-! ## Claim C2 -/

/-- C2 counterexample: when both the graceful flush and the forced removal
fail, the error returned by `FlushMultipathDevice` does not reference the
graceful-flush failure cause (here `GRACEFULCAUSE`): the claim that it
references both failure causes is false. -/
theorem claim2_counterexample :
    (FlushMultipathDevice (some "GRACEFULCAUSE") none none (some "FORCECAUSE") "mpatha").1
      = .error "Unable to remove the multipath device mpatha by force as well: FORCECAUSE"
    ∧ ¬ strMentions
        "Unable to remove the multipath device mpatha by force as well: FORCECAUSE"
        "GRACEFULCAUSE" := by
  constructor
  · rfl
  · rw [strMentions_iff]
    decide

/-- C2 (amended): when the graceful flush fails, forced removal is attempted
exactly once; if the forced removal also fails the returned error names the
alias and references the forced-removal failure cause (the graceful-flush
cause is only logged, not included in the returned error). -/
theorem claim2_flush_escalation (fc fe dev : String) (infoRes fuserRes : Option String)
    (forceRes : Option String) :
    ((FlushMultipathDevice (some fc) infoRes fuserRes forceRes dev).2.count
      FlushEvent.forceRemoveCall = 1)
    ∧ ((FlushMultipathDevice (some fc) infoRes fuserRes (some fe) dev).1 =
        .error ("Unable to remove the multipath device " ++ dev ++
          " by force as well: " ++ fe))
    ∧ strMentions
        ("Unable to remove the multipath device " ++ dev ++ " by force as well: " ++ fe)
        dev
    ∧ strMentions
        ("Unable to remove the multipath device " ++ dev ++ " by force as well: " ++ fe)
        fe := by
  refine ⟨?_, rfl, ?_, ?_⟩
  · cases forceRes <;> rfl
  · refine ⟨("Unable to remove the multipath device ").data,
      (" by force as well: " ++ fe).data, ?_⟩
    simp [string_data_append, List.append_assoc]
  · refine ⟨("Unable to remove the multipath device " ++ dev ++ " by force as well: ").data,
      [], ?_⟩
    simp [string_data_append, List.append_assoc]

/-! ## Claim C3 -/

/-- C3 counterexample: on the mount-table line
`/dev/mapper/mpatha /data ext4 rw` the function returns `["ext4"]` (the third
whitespace field), not `["/data"]` as the claim states. -/
theorem claim3_counterexample :
    findMountPointsOfMultipathDevice (.ok "/dev/mapper/mpatha /data ext4 rw") "mpatha"
      = .ok ["ext4"]
    ∧ findMountPointsOfMultipathDevice (.ok "/dev/mapper/mpatha /data ext4 rw") "mpatha"
      ≠ .ok ["/data"] := by
  constructor
  · rfl
  · intro h
    rw [show findMountPointsOfMultipathDevice (.ok "/dev/mapper/mpatha /data ext4 rw")
      "mpatha" = .ok ["ext4"] from rfl] at h
    exact absurd (Except.ok.inj h) (by decide)

/-- C3 (amended): given the mount-table line `/dev/mapper/mpatha /data ext4 rw`
the function returns `["ext4"]` — the mount point is taken from the third
whitespace-delimited field; given output with no line of more than three
fields whose first field contains the alias, it returns an empty list and no
error. -/
theorem claim3_mount_point_field (out : String)
    (h : ∀ line ∈ goSplitLines out, (goFields line).length ≤ 3 ∨
      strContainsB ((goFields line).getD 0 "") "mpatha" = false) :
    findMountPointsOfMultipathDevice (.ok "/dev/mapper/mpatha /data ext4 rw") "mpatha"
      = .ok ["ext4"]
    ∧ findMountPointsOfMultipathDevice (.ok out) "mpatha" = .ok [] := by
  refine ⟨rfl, ?_⟩
  simp only [findMountPointsOfMultipathDevice]
  rw [mountLine_foldl_nil "mpatha" _ h]

/-- C3 witness: a mount table whose only line does not name the alias yields
the empty list. -/
theorem claim3_witness :
    findMountPointsOfMultipathDevice (.ok "sysfs /sys sysfs rw") "mpatha" = .ok [] :=
  (claim3_mount_point_field "sysfs /sys sysfs rw" (by decide)).2

/-! ## Claims C4 and C5 -/

theorem portalFold_append (ipv4 : String → Bool) (l : List WinTargetPortal)
    (acc : List TargetPortal) :
    l.foldl (fun acc p => if ipv4 p.address then acc ++ [portalConv p] else acc) acc
      = acc ++ (l.filter fun p => ipv4 p.address).map portalConv := by
  induction l generalizing acc with
  | nil => simp
  | cons p rest ih =>
    by_cases hp : ipv4 p.address <;> simp [hp, ih, List.filter_cons]

/-- C4: for every device whose SCSI address resolves successfully,
`getIscsiTarget` returns the target record built from the first mapping in
list order whose OS target number and OS bus number both equal the resolved
`(TargetId, PathId)`; when no mapping matches it returns a NotFound error and
no target record. -/
theorem claim4_first_matching_mapping (scopeCache : String → String)
    (getScope : String → String) (portalCache : String → Option (List TargetPortal))
    (getPortals : String → String → Option (List TargetPortal))
    (addr : ScsiAddress) (mappings : List TargetMapping) :
    (getIscsiTarget scopeCache getScope portalCache getPortals (.ok addr) mappings).1 =
      match mappings.find?
        (fun m => m.osTargetNumber == addr.targetId && m.osBusNumber == addr.pathId) with
      | some m => .ok (buildIscsiTarget scopeCache getScope portalCache getPortals m).1
      | none => .error ⟨CErrorCode.notFound, errorMessageUnableLocateIscsiTarget⟩ := by
  simp only [getIscsiTarget]
  induction mappings with
  | nil => rfl
  | cons m rest ih =>
    rw [getIscsiTargetLoop, List.find?_cons]
    by_cases hp : (m.osTargetNumber == addr.targetId && m.osBusNumber == addr.pathId) = true
    · have hcond : ¬ (m.osTargetNumber ≠ addr.targetId ∨ m.osBusNumber ≠ addr.pathId) := by
        rw [Bool.and_eq_true, beq_iff_eq, beq_iff_eq] at hp
        rintro (hc | hc)
        · exact hc hp.1
        · exact hc hp.2
      rw [if_neg hcond, hp]
    · have hcond : m.osTargetNumber ≠ addr.targetId ∨ m.osBusNumber ≠ addr.pathId := by
        rw [Bool.and_eq_true, beq_iff_eq, beq_iff_eq] at hp
        by_cases h1 : m.osTargetNumber = addr.targetId
        · exact Or.inr fun h2 => hp ⟨h1, h2⟩
        · exact Or.inl h1
      rw [if_pos hcond, Bool.eq_false_iff.mpr hp]
      exact ih

/-- C5: for every successfully enumerated portal list, `getTargetPortals`
returns exactly the sublist of portals whose address is an IPv4 literal, in
the original relative order, with no error; non-IPv4 portals are dropped. -/
theorem claim5_ipv4_portal_filter (ipv4 : String → Bool) (ps : List WinTargetPortal) :
    getTargetPortals ipv4 (.ok ps) =
      .ok ((ps.filter fun p => ipv4 p.address).map portalConv) := by
  simp only [getTargetPortals]
  rw [portalFold_append]
  simp

/-! ## Recommendation-engine lemmas -/

theorem scope_inner_fold (hash : String → String) (settings : List String)
    (ps : List TemplateParam) (arr : List Recommendation) :
    ps.foldl (fun arr p =>
      match findParamValue settings p.key with
      | some v =>
        arr ++ [getMultipathDeviceParamRecommendation hash p.key (goTrimSpace v)
          p.recommendation p.description p.severity]
      | none =>
        arr ++ [getMultipathDeviceParamRecommendation hash p.key ""
          p.recommendation p.description p.severity]) arr
    = arr ++ ps.map fun p =>
        getMultipathDeviceParamRecommendation hash p.key
          ((findParamValue settings p.key).elim "" goTrimSpace)
          p.recommendation p.description p.severity := by
  induction ps generalizing arr with
  | nil => simp
  | cons p rest ih =>
    rw [List.foldl_cons]
    cases hf : findParamValue settings p.key with
    | none => simp [hf, ih]
    | some v => simp [hf, ih]

theorem scopeRecs_eq_map (hash : String → String) (templates : List DeviceTemplate)
    (block : String) :
    getMultipathDeviceScopeRecommendations hash templates block
      = templates.map fun tmpl =>
          { deviceType := tmpl.deviceType,
            recomendArray := tmpl.params.map fun p =>
              getMultipathDeviceParamRecommendation hash p.key
                ((findParamValue (goSplitLines block) p.key).elim "" goTrimSpace)
                p.recommendation p.description p.severity } := by
  simp only [getMultipathDeviceScopeRecommendations]
  suffices h : ∀ (ts : List DeviceTemplate) (acc : List DeviceRecommendation),
      ts.foldl (fun acc tmpl =>
        acc ++ [DeviceRecommendation.mk tmpl.deviceType
          (tmpl.params.foldl (fun arr p =>
            match findParamValue (goSplitLines block) p.key with
            | some v =>
              arr ++ [getMultipathDeviceParamRecommendation hash p.key (goTrimSpace v)
                p.recommendation p.description p.severity]
            | none =>
              arr ++ [getMultipathDeviceParamRecommendation hash p.key ""
                p.recommendation p.description p.severity]) [])]) acc
      = acc ++ ts.map fun tmpl =>
          DeviceRecommendation.mk tmpl.deviceType
            (tmpl.params.map fun p =>
              getMultipathDeviceParamRecommendation hash p.key
                ((findParamValue (goSplitLines block) p.key).elim "" goTrimSpace)
                p.recommendation p.description p.severity) by
    simpa using h templates []
  intro ts
  induction ts with
  | nil => intro acc; simp
  | cons tmpl rest ih =>
    intro acc
    rw [List.foldl_cons, ih, scope_inner_fold]
    simp

/-! ## Claim C6 -/

/-- C6 counterexample: with recommended value `abc`, the live value `a"bc`
(one interior double quote) is reported `Recommended` by the code, although it
does not equal `abc` after stripping surrounding quotes and trimming
whitespace — the code removes the first two double quotes wherever they
occur, not only surrounding ones. -/
theorem claim6_counterexample :
    (getMultipathDeviceParamRecommendation (fun s => s) "path_selector" "a\"bc" "abc"
      "" "").compliantStatus = ComplianceStatusT.recommended
    ∧ specStripSurroundingQuotes "a\"bc" ≠ "abc" := by
  constructor
  · rfl
  · decide

/-- C6 (amended): the verdict is `Recommended` exactly when the live value
equals the recommended value either directly or after deleting the first two
double-quote characters (wherever they occur); the live value is reported as
current and the key as parameter; and the scope scan emits, for every template
parameter, the verdict for the first matching line's whitespace-trimmed value,
or for the empty string when the key is absent from the device block. -/
theorem claim6_param_verdict (hash : String → String)
    (key curr rv desc sev : String) :
    ((getMultipathDeviceParamRecommendation hash key curr rv desc sev).compliantStatus
        = ComplianceStatusT.recommended ↔ (curr = rv ∨ goReplaceQuote2 curr = rv))
    ∧ (getMultipathDeviceParamRecommendation hash key curr rv desc sev).value = curr
    ∧ (getMultipathDeviceParamRecommendation hash key curr rv desc sev).parameter = key
    ∧ ∀ (templates : List DeviceTemplate) (block : String),
        getMultipathDeviceScopeRecommendations hash templates block
          = templates.map fun tmpl =>
              DeviceRecommendation.mk tmpl.deviceType
                (tmpl.params.map fun p =>
                  getMultipathDeviceParamRecommendation hash p.key
                    ((findParamValue (goSplitLines block) p.key).elim "" goTrimSpace)
                    p.recommendation p.description p.severity) := by
  refine ⟨?_, rfl, rfl, ?_⟩
  · simp only [getMultipathDeviceParamRecommendation]
    by_cases hc : curr = rv ∨ goReplaceQuote2 curr = rv <;> simp [hc]
  · intro templates block
    exact scopeRecs_eq_map hash templates block

/-! ## Claim C7 -/

/-- C7: two invocations of `GetMultipathRecommendations` on an unchanged
configuration and template set can return different verdict sets, because the
vendor-pattern loop overwrites the previous iteration's result and Go
randomizes map iteration order: with a Nimble-only configuration, the order
ending in the 3par pattern reports the parameter missing (`NotRecommended`,
empty current) while the order ending in the Nimble pattern reports the
matching live value (`Recommended`). -/
theorem claim7_map_order_divergence :
    GetMultipathRecommendations (fun s => s) (.ok false) true (.ok exTemplates)
      (some (.ok exContent)) exExtract deviceBlockPattern
    = .ok [DeviceRecommendation.mk "Nimble GST"
        [getMultipathDeviceParamRecommendation (fun s => s) "path_selector" "" "X" "" ""]]
    ∧ GetMultipathRecommendations (fun s => s) (.ok false) true (.ok exTemplates)
      (some (.ok exContent)) exExtract deviceBlockPattern.reverse
    = .ok [DeviceRecommendation.mk "Nimble GST"
        [getMultipathDeviceParamRecommendation (fun s => s) "path_selector" "X" "X" "" ""]]
    ∧ (getMultipathDeviceParamRecommendation (fun s => s) "path_selector" "" "X" ""
        "").compliantStatus = ComplianceStatusT.notRecommended
    ∧ (getMultipathDeviceParamRecommendation (fun s => s) "path_selector" "X" "X" ""
        "").compliantStatus = ComplianceStatusT.recommended
    ∧ deviceBlockPattern.reverse.Perm deviceBlockPattern := by
  refine ⟨?_, ?_, rfl, rfl, ?_⟩
  · rfl
  · rfl
  · decide

/-! ## Claim C8 -/

theorem lookupProp_setProp (props : List (String × String)) (key v : String) :
    lookupProp (setProp props key v) key = v := by
  induction props with
  | nil => simp [setProp, lookupProp, List.lookup]
  | cons kv rest ih =>
    obtain ⟨k2, v2⟩ := kv
    by_cases h : k2 = key
    · subst h
      simp [setProp, lookupProp, List.lookup]
    · have hne : ¬ (key == k2) = true := by
        simp [beq_iff_eq]
        exact fun hc => h hc.symm
      simp only [setProp, if_neg h]
      simp only [lookupProp, List.lookup, hne]
      exact ih

/-- C8: after `setMultipathRecommendations` the `defaults` section's
`find_multipaths` property equals `"no"` whenever it previously read `"yes"`
or was absent (a missing key or section reads as `""`), and any other
pre-existing value is left unchanged. -/
theorem claim8_find_multipaths_forced (config : MpathConfig)
    (recs : List Recommendation) :
    setMultipathRecommendations (.ok config) recs
      = .ok (applyMultipathRecommendations config recs)
    ∧ lookupProp ((applyMultipathRecommendations config recs).defaultsSection.getD [])
        "find_multipaths"
      = (if lookupProp (config.defaultsSection.getD []) "find_multipaths" = "yes"
            ∨ lookupProp (config.defaultsSection.getD []) "find_multipaths" = ""
         then "no"
         else lookupProp (config.defaultsSection.getD []) "find_multipaths") := by
  refine ⟨rfl, ?_⟩
  simp only [applyMultipathRecommendations]
  by_cases hv : lookupProp (config.defaultsSection.getD []) "find_multipaths" = "yes"
      ∨ lookupProp (config.defaultsSection.getD []) "find_multipaths" = ""
  · simp [hv, lookupProp_setProp]
  · simp [hv]

/-! ## Claim C10 -/

theorem processMaps_unhealthy (vendorPatterns : List String)
    (maps : List MultipathDeviceEntry)
    (hzero : ∀ m ∈ maps, m.isUnhealthy = false) :
    ∀ e ∈ processMaps vendorPatterns maps,
      (e.isUnhealthy = true ↔ (e.paths < 1 ∧ e.pathFaults > 0)) := by
  induction maps with
  | nil => intro e he; cases he
  | cons m rest ih =>
    have hm := hzero m (List.mem_cons_self _ _)
    have hrest : ∀ m2 ∈ rest, m2.isUnhealthy = false :=
      fun m2 h2 => hzero m2 (List.mem_cons_of_mem _ h2)
    intro e he
    rw [processMaps] at he
    by_cases hsup : 0 < m.vend.length ∧ isSupportedDeviceVendor vendorPatterns m.vend
    · rw [if_pos hsup] at he
      rcases List.mem_cons.mp he with he1 | he2
      · by_cases hcond : m.paths < 1 ∧ m.pathFaults > 0
        · rw [if_pos hcond] at he1
          subst he1
          simp [hcond]
        · rw [if_neg hcond] at he1
          subst he1
          simp [hm, hcond]
      · exact ih hrest e he2
    · rw [if_neg hsup] at he
      exact ih hrest e he

/-- C10: every map entry surfaced by `GetMultipathDevices` (non-empty,
supported vendor) is marked unhealthy exactly when its active path count is
less than 1 and its path-fault count is greater than 0; all other surfaced
entries keep `IsUnhealthy` unset (the JSON unmarshals it to `false`). -/
theorem claim10_unhealthy_marking (vendorPatterns : List String) (out : String)
    (maps : List MultipathDeviceEntry) (hout : out ≠ "")
    (hzero : ∀ m ∈ maps, m.isUnhealthy = false) :
    GetMultipathDevices vendorPatterns (.ok out) (fun _ => .ok maps)
      = .ok (processMaps vendorPatterns maps)
    ∧ ∀ e ∈ processMaps vendorPatterns maps,
        (e.isUnhealthy = true ↔ (e.paths < 1 ∧ e.pathFaults > 0)) := by
  constructor
  · simp only [GetMultipathDevices]
    rw [if_pos hout]
  · exact processMaps_unhealthy vendorPatterns maps hzero

/-- C10 witness: concrete entries — a supported entry with zero active paths
and two faults is surfaced unhealthy, a healthy supported entry stays
unmarked, the unsupported entry is dropped. -/
theorem claim10_witness :
    GetMultipathDevices ["Nimble"] (.ok "j") (fun _ => .ok exMaps)
      = .ok (processMaps ["Nimble"] exMaps)
    ∧ ∀ e ∈ processMaps ["Nimble"] exMaps,
        (e.isUnhealthy = true ↔ (e.paths < 1 ∧ e.pathFaults > 0)) :=
  claim10_unhealthy_marking ["Nimble"] "j" exMaps (by decide) (by decide)
